import Mathlib

/-!
Shallow embedding of the company-research pipeline:
the web-search gateway with its TTL/LRU-by-insertion cache
(`Tools/webSearchTool.py`), the batch fan-out search
(`Tools/industryResearchTool.py`, `Tools/resourceCollectorTool.py`),
the pipeline stages and their error handling
(`Tools/industryResearchTool.py`, `Tools/aiRecommendationTool.py`,
`Tools/resourceCollectorTool.py`), the orchestrator wrappers with
progress callbacks (`workflow.py`) and the external report cache
short-circuit (`app1.py`).

Modelling conventions: wall-clock time and relevance scores are
rationals (Python floats carry no rounding-relevant arithmetic here);
remote providers (Tavily search, the LLM) are parameters returning
`Except String` values, an `Except.error` standing for a raised
exception; Python dicts that are used as keyed stores are association
lists in insertion order (Python dicts preserve insertion order, and
assignment to an existing key keeps its position); the md5 cache key of
`query:max_results` is modelled by the pair itself, which is injective
because the textual encoding is recoverable by splitting at the last
colon.
-/

/-- Search result record produced by `WebSearchTool._run`
    (title, url, truncated content, relevance score). -/
structure SearchResult where
  title : String
  url : String
  content : String
  relevance_score : Rat
deriving DecidableEq, BEq

/-- Raw result dictionary as returned by the Tavily provider; each field
    is optional because the code reads them with `dict.get` defaults. -/
structure RawResult where
  title : Option String
  url : Option String
  raw_content : Option String
  score : Option Rat
deriving DecidableEq

/-- Result-processing step of `WebSearchTool._run` (lines 87-94):
    defaults for missing fields, truncation of `raw_content` to 1000
    characters followed by `"..."` when the raw content is truthy. -/
def processResult (r : RawResult) : SearchResult :=
  { title := r.title.getD "No Title"
    url := r.url.getD ""
    content :=
      match r.raw_content with
      | some c => if c = "" then "" else (c.take 1000) ++ "..."
      | none => ""
    relevance_score := r.score.getD 0 }

/-- Sentinel returned when the provider responds with zero results
    (`webSearchTool.py` line 100). -/
def noResultsFound : SearchResult :=
  { title := "No results found", url := "", content := "", relevance_score := 0 }

/-- Sentinel returned after all retries fail (`webSearchTool.py` line 108). -/
def searchErrorResult (e : String) : SearchResult :=
  { title := "Search Error", url := ""
    content := "Web search failed after 3 attempts: " ++ e
    relevance_score := 0 }

/-- One entry of the web-search cache: key (md5 stand-in), cached result
    list, insertion timestamp.  The two Python dicts `_cache` and
    `_cache_timestamps` always hold the same keys (they are updated and
    deleted together), so they are modelled as one association list. -/
structure CacheEntry where
  key : String × Nat
  value : List SearchResult
  ts : Rat
deriving DecidableEq

/-- Dictionary lookup on the cache (`cache_key in self._cache`): the
    first (and, keys being unique, only) entry with the given key. -/
def lookupEntry : List CacheEntry → String × Nat → Option CacheEntry
  | [], _ => none
  | e :: es, k => if e.key = k then some e else lookupEntry es k

/-- Dictionary assignment `self._cache[key] = results` together with
    `self._cache_timestamps[key] = now`: overwrite in place if the key
    is present, append otherwise. -/
def setEntry : List CacheEntry → String × Nat → List SearchResult → Rat → List CacheEntry
  | [], k, v, t => [⟨k, v, t⟩]
  | e :: es, k, v, t =>
      if e.key = k then ⟨k, v, t⟩ :: es else e :: setEntry es k v t

/-- Dictionary deletion `del self._cache[key]` (and the timestamp dict). -/
def eraseKey : List CacheEntry → String × Nat → List CacheEntry
  | [], _ => []
  | e :: es, k => if e.key = k then es else e :: eraseKey es k

/-- Entry reached by `min(self._cache_timestamps, key=...)`: the first
    entry (in insertion order) whose timestamp is minimal. -/
def oldestEntry : List CacheEntry → Option CacheEntry
  | [] => none
  | e :: es => some (es.foldl (fun best x => if x.ts < best.ts then x else best) e)

/-- Key of the oldest entry, as computed by `_add_to_cache` line 51. -/
def oldestKey (c : List CacheEntry) : Option (String × Nat) :=
  (oldestEntry c).map (·.key)

/-- `WebSearchTool._add_to_cache` (lines 47-57): if the cache already
    holds at least `maxSize` entries, delete the oldest entry, then
    insert/overwrite the new entry with the current time.  (Python's
    `min` over an empty dict would raise; that branch is unreachable
    whenever `maxSize ≥ 1`.) -/
def addToCache (maxSize : Nat) (c : List CacheEntry) (k : String × Nat)
    (v : List SearchResult) (now : Rat) : List CacheEntry :=
  let c' :=
    if maxSize ≤ c.length then
      match oldestKey c with
      | some ok => eraseKey c ok
      | none => c
    else c
  setEntry c' k v now

/-- `WebSearchTool._get_from_cache` (lines 34-45): return the cached
    value when the key is present and `now - timestamp ≤ ttl`; on
    expiry delete the entry (and its timestamp) and return `none`;
    return `none` when the key is unseen.  The second component is the
    cache after the call. -/
def getFromCache (c : List CacheEntry) (k : String × Nat) (ttl : Rat)
    (now : Rat) : Option (List SearchResult) × List CacheEntry :=
  match lookupEntry c k with
  | some e => if now - e.ts ≤ ttl then (some e.value, c) else (none, eraseKey c k)
  | none => (none, c)

/-- Observable outcome of one `WebSearchTool._run` call: the returned
    result list, the cache afterwards, the list of back-off sleeps
    performed, and the number of provider invocations made. -/
structure WSRun where
  results : List SearchResult
  cache : List CacheEntry
  sleeps : List Rat
  attempts : Nat
deriving DecidableEq

/-- Retry loop of `WebSearchTool._run` (lines 76-108).  `attempt` is the
    0-based index of the current attempt, `triesLeft` the number of
    retries still allowed (`max_retries - 1 - attempt`), `delay` the
    current back-off (`retry_delay`, initially 2, doubled after each
    failure), `now` the current time.  On a successful provider call the
    raw results are processed; a non-empty list is stored in the cache
    and returned, an empty one yields the no-results sentinel; on
    failure the loop sleeps `delay` and retries until no tries are
    left, then returns the error sentinel. -/
def retrySearch (maxSize : Nat) (provider : Nat → Except String (List RawResult))
    (k : String × Nat) (c : List CacheEntry) :
    Nat → Nat → Rat → Rat → WSRun
  | attempt, triesLeft, delay, now =>
    match provider attempt with
    | .ok raw =>
        let results := raw.map processResult
        if results = [] then ⟨[noResultsFound], c, [], attempt + 1⟩
        else ⟨results, addToCache maxSize c k results now, [], attempt + 1⟩
    | .error e =>
        match triesLeft with
        | 0 => ⟨[searchErrorResult e], c, [], attempt + 1⟩
        | t + 1 =>
            let r := retrySearch maxSize provider k c (attempt + 1) t (delay * 2) (now + delay)
            ⟨r.results, r.cache, delay :: r.sleeps, r.attempts⟩

/-- Query normalisation of `WebSearchTool._run` line 64
    (`query.strip().lower()`). -/
def normalizeQuery (query : String) : String :=
  query.trim.toLower

/-- `WebSearchTool._run` (lines 59-108): normalise the query, consult
    the cache (a hit is used only when the cached list is truthy, i.e.
    non-empty), otherwise run the retry loop with `max_retries = 3` and
    initial `retry_delay = 2`. -/
def webSearchRun (maxSize : Nat) (c : List CacheEntry)
    (provider : Nat → Except String (List RawResult)) (query : String)
    (maxResults : Nat) (ttl : Rat) (now : Rat) : WSRun :=
  let k := (normalizeQuery query, maxResults)
  let g := getFromCache c k ttl now
  match g.1 with
  | some rs =>
      if rs = [] then retrySearch maxSize provider k g.2 0 2 2 now
      else ⟨rs, g.2, [], 0⟩
  | none => retrySearch maxSize provider k g.2 0 2 2 now

/-- One fan-out task (`search_one` in `IndustryResearchTool._search_async`
    and `ResourceCollectorTool._search_resources_async`): run the query,
    substituting the empty list when the call raises. -/
def searchOne (f : String → Except String (List SearchResult)) (q : String) :
    List SearchResult :=
  match f q with
  | .ok rs => rs
  | .error _ => []

/-- Batch fan-out search (`_search_async` / `_search_resources_async`):
    `asyncio.gather` evaluates the tasks and yields their outcomes in
    submission order; the loop then flattens them by repeated `extend`. -/
def searchAsync (f : String → Except String (List SearchResult))
    (queries : List String) : List SearchResult :=
  (queries.map (searchOne f)).foldl (fun acc r => acc ++ r) []

/-- Research record threaded through the pipeline (`state.py`,
    `ResearchState`).  TypedDict fields are modelled as always present
    with empty defaults; only fields the modelled stages touch appear. -/
structure ResearchState where
  company_name : String := ""
  industry : String := ""
  key_offerings : List String := []
  market_trends : List String := []
  industry_insights : String := ""
  web_search_results : List SearchResult := []
  resource_links : List String := []
  ai_recommendations : String := ""
  errors : List String := []
deriving DecidableEq

/-- Character-level helper for Python's `line.split('. ', 1)[-1]`: text
    after the first occurrence of `". "`, or `none` when absent. -/
def dropThroughSep : List Char → Option (List Char)
  | [] => none
  | '.' :: ' ' :: rest => some rest
  | _ :: rest => dropThroughSep rest

/-- Trend text of one matching line (`industryResearchTool.py` line 177). -/
def trendText (line : String) : String :=
  match dropThroughSep line.toList with
  | some rest => String.mk rest
  | none => line

/-- Line filter of the first pass of `_extract_trends` (line 173-175):
    non-empty, longer than 10 characters, starting with a digit (the
    second disjunct of the Python condition is subsumed by the first). -/
def trendLineOk (line : String) : Bool :=
  line ≠ "" && decide (10 < line.length) &&
    (match line.toList with
     | c :: _ => c.isDigit
     | [] => false)

/-- `IndustryResearchTool._extract_trends` (lines 165-186): collect
    numbered lines, stripped, keeping the text after the first `". "`;
    if none match, fall back to bullet lines; return at most 5. -/
def extractTrends (content : String) : List String :=
  let lines := content.splitOn "\n"
  let trends := ((lines.map String.trim).filter trendLineOk).map trendText
  let trends :=
    if trends = [] then
      (lines.filter (fun l =>
        l.trim ≠ "" && decide (10 < l.length) &&
          (["- ", "â€¢ ", "* "].any (fun p => l.startsWith p)))).map String.trim
    else trends
  trends.take 5

/-- Stable descending insertion: place `x` before the first element of
    strictly smaller score, after all elements of greater-or-equal
    score.  Iterated over a list this computes exactly Python's stable
    `sorted(..., key=lambda x: x['relevance_score'], reverse=True)`. -/
def insertByScoreDesc (x : SearchResult) : List SearchResult → List SearchResult
  | [] => [x]
  | y :: ys =>
      if y.relevance_score < x.relevance_score then x :: y :: ys
      else y :: insertByScoreDesc x ys

/-- Stable sort by descending relevance score, as used at
    `industryResearchTool.py` lines 119 and 148-152. -/
def sortByScoreDesc (rs : List SearchResult) : List SearchResult :=
  rs.foldr insertByScoreDesc []

/-- `IndustryResearchTool._run` (lines 93-163) at the granularity the
    claims need: `offerings` is the outcome of the (internally
    exception-safe) `_discover_key_offerings`, `allResults` the
    flattened fan-out search results, `analysis` the LLM analysis call.
    On analysis failure the error list is REPLACED by a singleton
    (`state['errors']=[...]`, line 158) and defaults are substituted;
    no exception escapes the stage. -/
def industryResearchRun (s : ResearchState) (offerings : List String)
    (allResults : List SearchResult) (analysis : Except String String) :
    ResearchState :=
  let s1 := { s with key_offerings := offerings }
  match analysis with
  | .ok content =>
      { s1 with
        market_trends := extractTrends content
        industry_insights := content
        web_search_results := (sortByScoreDesc allResults).take 10 }
  | .error e =>
      { s1 with
        errors := ["Analysis error: " ++ e]
        market_trends := []
        industry_insights := "Error during analysis: " ++ e
        web_search_results := (sortByScoreDesc allResults).take 10 }

/-- `AIRecommendationTool._run` (lines 14-72): one LLM call with no
    try/except around it; a raised exception propagates out of the
    stage, hence the `Except` result. -/
def aiRecommendationRun (s : ResearchState) (llm : Except String String) :
    Except String ResearchState :=
  match llm with
  | .ok content => .ok { s with ai_recommendations := content }
  | .error e => .error e

/-- Boolean substring containment (Python's `needle in hay`). -/
def strContains (hay needle : String) : Bool :=
  let h := hay.toList
  let n := needle.toList
  (List.range (h.length + 1)).any (fun i => (h.drop i).take n.length == n)

/-- Domain importance table of `ResourceCollectorTool._run`
    (lines 76-87), in literal (dict-iteration) order. -/
def relevantDomains : List (String × Rat) :=
  [("kaggle.com", 10), ("github.com", 9), ("huggingface.co", 8),
   ("paperswithcode.com", 7), ("tensorflow.org", 6), ("pytorch.org", 6),
   ("scikit-learn.org", 5), ("openml.org", 5), ("data.gov", 4),
   ("google.com/dataset", 4)]

/-- Domain score loop (lines 103-107): first matching domain wins. -/
def domainScore (url : String) : Rat :=
  match relevantDomains.find? (fun d => strContains url.toLower d.1) with
  | some d => d.2
  | none => 0

/-- Scoring loop of `ResourceCollectorTool._run` (lines 89-115): skip
    empty urls, urls already scored, and urls matching no relevant
    domain; otherwise record `relevance_score * 5 * domain_score`.
    The accumulator is the `resource_scores` dict in insertion order. -/
def buildScores : List SearchResult → List (String × Rat) → List (String × Rat)
  | [], acc => acc
  | r :: rs, acc =>
      if r.url = "" then buildScores rs acc
      else if (acc.find? (fun p => p.1 == r.url)).isSome then buildScores rs acc
      else if domainScore r.url = 0 then buildScores rs acc
      else buildScores rs (acc ++ [(r.url, r.relevance_score * 5 * domainScore r.url)])

/-- Stable descending insertion on scored urls (same scheme as
    `insertByScoreDesc`), modelling Python's stable reverse sort of
    `resource_scores.keys()` by score. -/
def insertPairDesc (x : String × Rat) : List (String × Rat) → List (String × Rat)
  | [] => [x]
  | y :: ys => if y.2 < x.2 then x :: y :: ys else y :: insertPairDesc x ys

/-- Lines 117-118: urls sorted by score descending, truncated to 15. -/
def sortedResourceUrls (scores : List (String × Rat)) : List String :=
  ((scores.foldr insertPairDesc []).map (·.1)).take 15

/-- Append loop of `ResourceCollectorTool._run` (lines 120-124):
    membership is tested against the set of links present BEFORE the
    loop, and new urls are appended in order. -/
def appendNewLinks (links : List String) (urls : List String) : List String :=
  urls.foldl (fun acc url => if url ∈ links then acc else acc ++ [url]) links

/-- Resource-link update performed by `ResourceCollectorTool._run` on
    its success path, as a function of the record's current links and
    the flattened search results. -/
def resourceCollectorLinks (links : List String) (searches : List SearchResult) :
    List String :=
  appendNewLinks links (sortedResourceUrls (buildScores searches []))

/-- Row of the external `report_cache` table (`app1.py`), with
    `created_at` in days and the record payload modelled as the eval'd
    dict's item list. -/
structure ReportRow where
  company : String
  industry : String
  data : List (String × String)
  created_at : Rat
deriving DecidableEq

/-- `get_cached_report` (`app1.py` lines 177-190): first row matching
    company and industry with `created_at > now - 1 day`, payload
    eval'd back to a record; `none` when no such row exists. -/
def getCachedReport (rows : List ReportRow) (company industry : String)
    (now : Rat) : Option (List (String × String)) :=
  (rows.find? (fun r =>
    r.company == company && r.industry == industry &&
      decide (now - 1 < r.created_at))).map (·.data)

/-- `research_company` (`app1.py` lines 383-406): consult the report
    cache first; a TRUTHY cached record (`if cached_result:`) is
    returned as-is without invoking the workflow; otherwise the
    workflow is invoked on the initial record.  The boolean records
    whether the workflow was invoked. -/
def researchCompany (rows : List ReportRow)
    (workflow : List (String × String) → List (String × String))
    (company industry : String) (now : Rat) :
    (String × List (String × String)) × Bool :=
  match getCachedReport rows company industry now with
  | some r =>
      if r = [] then
        ((company, workflow [("company_name", company), ("industry", industry)]), true)
      else ((company, r), false)
  | none =>
      ((company, workflow [("company_name", company), ("industry", industry)]), true)

/-- Progress callback type (`workflow.py`): message, step, total; a
    raised exception is an `Except.error`. -/
def ProgressCb : Type :=
  String → Nat → Nat → Except String Unit

/-- One `*_with_progress` wrapper from `create_research_workflow`
    (`workflow.py` lines 78-133): when a callback is supplied it is
    called before the stage and after it; no call is wrapped in
    try/except, so a raised exception propagates.  The trace lists the
    callback invocations actually performed to completion. -/
def stageWithProgress (cb : Option ProgressCb) (pre post : String)
    (step total : Nat) (stage : ResearchState → Except String ResearchState)
    (s : ResearchState) :
    Except String (ResearchState × List (String × Nat × Nat)) :=
  match cb with
  | none => (stage s).map (fun r => (r, []))
  | some f =>
    match f pre step total with
    | .error e => .error e
    | .ok _ =>
      match stage s with
      | .error e => .error e
      | .ok r =>
        match f post step total with
        | .error e => .error e
        | .ok _ => .ok (r, [(pre, step, total), (post, step, total)])

/-- One node of the linear stage chain: its two progress messages, its
    step number, and the underlying tool's `_run`. -/
structure StageSpec where
  pre : String
  post : String
  step : Nat
  stage : ResearchState → Except String ResearchState

/-- Linear chain execution (the compiled `StateGraph` is a strict
    linear chain, `workflow.py` lines 145-155): each stage's output
    record feeds the next stage; traces are concatenated. -/
def runStages (cb : Option ProgressCb) :
    List StageSpec → ResearchState →
    Except String (ResearchState × List (String × Nat × Nat))
  | [], s => .ok (s, [])
  | sp :: rest, s =>
    match stageWithProgress cb sp.pre sp.post sp.step 8 sp.stage s with
    | .error e => .error e
    | .ok (r, t) =>
      match runStages cb rest r with
      | .error e => .error e
      | .ok (r2, t2) => .ok (r2, t ++ t2)

/-- Stage chain built by `create_research_workflow` (`workflow.py`),
    with the exact progress messages and `(step, total=8)` numbers of
    the source (step 2 is skipped: the SWOT stage is commented out). -/
def researchWorkflowStages
    (f1 f2 f3 f4 f5 f6 f7 : ResearchState → Except String ResearchState) :
    List StageSpec :=
  [⟨"🔍 Researching industry trends and company info...", "✅ Industry research completed", 1, f1⟩,
   ⟨"💡 Generating AI use cases...", "✅ Use cases generated", 3, f2⟩,
   ⟨"🤖 Creating AI recommendations...", "✅ AI recommendations completed", 4, f3⟩,
   ⟨"📚 Collecting relevant resources...", "✅ Resources collected", 5, f4⟩,
   ⟨"🏁 Analyzing competitors...", "✅ Competitor analysis completed", 6, f5⟩,
   ⟨"🛠️ Creating implementation plans...", "✅ Implementation plans created", 7, f6⟩,
   ⟨"💰 Calculating cost-benefit analysis...", "✅ Cost-benefit analysis completed", 8, f7⟩]

/-- `create_research_workflow` composed with `invoke`: run the seven
    wrapped stages in their fixed order. -/
def createResearchWorkflow (cb : Option ProgressCb)
    (f1 f2 f3 f4 f5 f6 f7 : ResearchState → Except String ResearchState)
    (s : ResearchState) :
    Except String (ResearchState × List (String × Nat × Nat)) :=
  runStages cb (researchWorkflowStages f1 f2 f3 f4 f5 f6 f7) s

/-! Helper lemmas about the cache operations. -/

theorem lookupEntry_setEntry_self (k : String × Nat) (v : List SearchResult)
    (t : Rat) : ∀ c : List CacheEntry, lookupEntry (setEntry c k v t) k = some ⟨k, v, t⟩
  | [] => by simp [setEntry, lookupEntry]
  | e :: es => by
    by_cases h : e.key = k
    · simp [setEntry, h, lookupEntry]
    · simp [setEntry, h, lookupEntry, lookupEntry_setEntry_self k v t es]

theorem lookupEntry_eq_none_of_not_mem (k : String × Nat) :
    ∀ c : List CacheEntry, k ∉ c.map (·.key) → lookupEntry c k = none
  | [], _ => rfl
  | e :: es, h => by
    simp only [List.map_cons, List.mem_cons, not_or] at h
    have he : ¬ e.key = k := fun hk => h.1 hk.symm
    simp only [lookupEntry, if_neg he]
    exact lookupEntry_eq_none_of_not_mem k es h.2

theorem lookupEntry_eraseKey_self (k : String × Nat) :
    ∀ c : List CacheEntry, (c.map (·.key)).Nodup →
      lookupEntry (eraseKey c k) k = none
  | [], _ => by simp [eraseKey, lookupEntry]
  | e :: es, hnd => by
    simp only [List.map_cons, List.nodup_cons] at hnd
    by_cases h : e.key = k
    · simp only [eraseKey, if_pos h]
      exact lookupEntry_eq_none_of_not_mem k es (h ▸ hnd.1)
    · simp only [eraseKey, if_neg h, lookupEntry, if_neg h]
      exact lookupEntry_eraseKey_self k es hnd.2

theorem setEntry_length (k : String × Nat) (v : List SearchResult) (t : Rat) :
    ∀ c : List CacheEntry, (setEntry c k v t).length =
      if (lookupEntry c k).isSome then c.length else c.length + 1
  | [] => by simp [setEntry, lookupEntry]
  | e :: es => by
    by_cases h : e.key = k
    · simp [setEntry, h, lookupEntry]
    · by_cases h2 : (lookupEntry es k).isSome <;>
        simp [setEntry, h, lookupEntry, setEntry_length k v t es, h2]

theorem eraseKey_length (k : String × Nat) :
    ∀ c : List CacheEntry, (eraseKey c k).length =
      if (lookupEntry c k).isSome then c.length - 1 else c.length
  | [] => by simp [eraseKey, lookupEntry]
  | e :: es => by
    by_cases h : e.key = k
    · simp [eraseKey, h, lookupEntry]
    · by_cases h2 : (lookupEntry es k).isSome
      · have hlen : 1 ≤ es.length := by
          cases es with
          | nil => simp [lookupEntry] at h2
          | cons x xs => simp
        simp only [eraseKey, if_neg h, lookupEntry, List.length_cons,
          eraseKey_length k es, if_pos h2]
        omega
      · simp [eraseKey, h, lookupEntry, eraseKey_length k es, h2]

theorem lookupEntry_isSome_of_mem {c : List CacheEntry} {e : CacheEntry}
    (he : e ∈ c) : (lookupEntry c e.key).isSome := by
  induction c with
  | nil => simp at he
  | cons x xs ih =>
    rcases List.mem_cons.mp he with rfl | he2
    · simp [lookupEntry]
    · by_cases h : x.key = e.key
      · simp [lookupEntry, h]
      · simp only [lookupEntry, if_neg h]
        exact ih he2

theorem oldestEntry_spec (e : CacheEntry) (es : List CacheEntry) :
    ∃ b, oldestEntry (e :: es) = some b ∧ b ∈ e :: es ∧ ∀ x ∈ e :: es, b.ts ≤ x.ts := by
  suffices h : ∀ (l : List CacheEntry) (best : CacheEntry),
      (l.foldl (fun best x => if x.ts < best.ts then x else best) best = best ∨
       l.foldl (fun best x => if x.ts < best.ts then x else best) best ∈ l) ∧
      (l.foldl (fun best x => if x.ts < best.ts then x else best) best).ts ≤ best.ts ∧
      ∀ x ∈ l, (l.foldl (fun best x => if x.ts < best.ts then x else best) best).ts ≤ x.ts by
    obtain ⟨h1, h2, h3⟩ := h es e
    refine ⟨_, rfl, ?_, ?_⟩
    · rcases h1 with h1 | h1
      · rw [h1]; exact List.mem_cons_self e es
      · exact List.mem_cons_of_mem e h1
    · intro x hx
      rcases List.mem_cons.mp hx with rfl | hx
      · exact h2
      · exact h3 x hx
  intro l
  induction l with
  | nil => simp
  | cons y ys ih =>
    intro best
    simp only [List.foldl_cons]
    by_cases hy : y.ts < best.ts
    · obtain ⟨ih1, ih2, ih3⟩ := ih y
      rw [if_pos hy]
      refine ⟨?_, (lt_of_le_of_lt ih2 hy).le, ?_⟩
      · rcases ih1 with h | h
        · exact Or.inr (by rw [h]; exact List.mem_cons_self y ys)
        · exact Or.inr (List.mem_cons_of_mem y h)
      · intro x hx
        rcases List.mem_cons.mp hx with rfl | hx
        · exact ih2
        · exact ih3 x hx
    · obtain ⟨ih1, ih2, ih3⟩ := ih best
      rw [if_neg hy]
      refine ⟨?_, ih2, ?_⟩
      · rcases ih1 with h | h
        · exact Or.inl h
        · exact Or.inr (List.mem_cons_of_mem y h)
      · intro x hx
        rcases List.mem_cons.mp hx with rfl | hx
        · exact le_trans ih2 (not_lt.mp hy)
        · exact ih3 x hx

/-- Concrete two-entry cache at capacity, entry `a` older than `b`. -/
def cacheTwo : List CacheEntry := [⟨("a", 5), [], 1⟩, ⟨("b", 5), [], 2⟩]

/-- C3 counterexample: with capacity 2 and a full cache, a `put` that
    merely OVERWRITES the existing key `b` (so the insertion would not
    make the size exceed the capacity) still evicts the oldest entry
    `a`, contradicting the claim's "and in no other case, in particular
    not when the put merely overwrites an existing key". -/
theorem put_overwrite_at_capacity_evicts_cx :
    (lookupEntry cacheTwo ("b", 5)).isSome = true ∧
    cacheTwo.length = 2 ∧
    addToCache 2 cacheTwo ("b", 5) [] 3 = [⟨("b", 5), [], 3⟩] ∧
    lookupEntry (addToCache 2 cacheTwo ("b", 5) [] 3) ("a", 5) = none := by
  refine ⟨?_, rfl, ?_, ?_⟩
  · norm_num [cacheTwo, lookupEntry]
    decide
  · norm_num [addToCache, cacheTwo, oldestKey, oldestEntry, eraseKey, setEntry]
  · norm_num [addToCache, cacheTwo, oldestKey, oldestEntry, eraseKey, setEntry,
      lookupEntry]
    decide

/-- C3 (amended): `_add_to_cache` evicts the entry with the smallest
    insertion timestamp exactly when the cache already holds at least
    `capacity` entries at put time — including when the put overwrites
    an existing key — and, for capacity ≥ 1, a cache within capacity
    stays within capacity. -/
theorem add_to_cache_eviction_amended (maxSize : Nat) (c : List CacheEntry)
    (k : String × Nat) (v : List SearchResult) (now : Rat)
    (hms : 1 ≤ maxSize) (hle : c.length ≤ maxSize) :
    (addToCache maxSize c k v now).length ≤ maxSize ∧
    (c.length < maxSize → addToCache maxSize c k v now = setEntry c k v now) ∧
    (c.length = maxSize → ∃ b, oldestEntry c = some b ∧ b ∈ c ∧
      (∀ x ∈ c, b.ts ≤ x.ts) ∧
      addToCache maxSize c k v now = setEntry (eraseKey c b.key) k v now) := by
  have hsetlen : ∀ c2 : List CacheEntry, (setEntry c2 k v now).length ≤ c2.length + 1 := by
    intro c2
    rw [setEntry_length]
    split <;> omega
  by_cases hlt : c.length < maxSize
  · have hnotle : ¬ maxSize ≤ c.length := by omega
    have heq : addToCache maxSize c k v now = setEntry c k v now := by
      simp [addToCache, hnotle]
    refine ⟨?_, fun _ => heq, fun hceq => absurd hceq (by omega)⟩
    rw [heq, setEntry_length]
    split <;> omega
  · have hceq : c.length = maxSize := by omega
    cases c with
    | nil => simp at hceq; omega
    | cons e es =>
      obtain ⟨b, hb1, hb2, hb3⟩ := oldestEntry_spec e es
      have hkey : oldestKey (e :: es) = some b.key := by
        rw [oldestKey, hb1]; rfl
      have hrun : addToCache maxSize (e :: es) k v now =
          setEntry (eraseKey (e :: es) b.key) k v now := by
        have hge : maxSize ≤ es.length + 1 := by
          simpa using le_of_eq hceq.symm
        simp [addToCache, hge, hkey]
      refine ⟨?_, fun h => absurd h (by omega), fun _ => ⟨b, hb1, hb2, hb3, hrun⟩⟩
      rw [hrun]
      have hsome : (lookupEntry (e :: es) b.key).isSome := lookupEntry_isSome_of_mem hb2
      have hel : (eraseKey (e :: es) b.key).length = (e :: es).length - 1 := by
        rw [eraseKey_length, if_pos hsome]
      calc (setEntry (eraseKey (e :: es) b.key) k v now).length
          ≤ (eraseKey (e :: es) b.key).length + 1 := hsetlen _
        _ ≤ maxSize := by
            rw [hel]
            simp only [List.length_cons] at hceq ⊢
            omega

/-- Witness for the amended C3 theorem at a concrete input. -/
theorem add_to_cache_eviction_witness :
    (addToCache 1 [] ("q", 5) [] 0).length ≤ 1 :=
  (add_to_cache_eviction_amended 1 [] ("q", 5) [] 0 (by norm_num) (by simp)).1

/-- Concrete one-entry cache inserted at time 0. -/
def cacheOne : List CacheEntry := [⟨("q", 5), [noResultsFound], 0⟩]

/-- C4: the `get` contract of `_get_from_cache`: an unseen key yields
    absent and leaves the cache unchanged; a present, fresh entry
    (`now - insertion_time ≤ ttl`) yields its stored value and leaves
    the cache unchanged; an expired entry yields absent and is deleted
    together with its timestamp; and a `put` followed immediately by a
    `get` with `ttl ≥ 0` returns the stored value. -/
theorem get_from_cache_contract (c : List CacheEntry) (k : String × Nat)
    (ttl now : Rat) :
    (lookupEntry c k = none → getFromCache c k ttl now = (none, c)) ∧
    (∀ e, lookupEntry c k = some e → now - e.ts ≤ ttl →
        getFromCache c k ttl now = (some e.value, c)) ∧
    (∀ e, lookupEntry c k = some e → ttl < now - e.ts →
        getFromCache c k ttl now = (none, eraseKey c k) ∧
        ((c.map (·.key)).Nodup → lookupEntry (eraseKey c k) k = none)) ∧
    (∀ (v : List SearchResult) (maxSize : Nat), 1 ≤ maxSize → 0 ≤ ttl →
        (getFromCache (addToCache maxSize c k v now) k ttl now).1 = some v) := by
  refine ⟨?_, ?_, ?_, ?_⟩
  · intro h; simp [getFromCache, h]
  · intro e he hf; simp [getFromCache, he, hf]
  · intro e he hf
    have hnot : ¬ (now - e.ts ≤ ttl) := not_le.mpr hf
    exact ⟨by simp [getFromCache, he, hnot],
      fun hnd => lookupEntry_eraseKey_self k c hnd⟩
  · intro v maxSize _ httl
    have hl : lookupEntry (addToCache maxSize c k v now) k = some ⟨k, v, now⟩ := by
      rw [addToCache]
      exact lookupEntry_setEntry_self k v now _
    simp [getFromCache, hl, sub_self, httl]

/-- Witness for C4 at a concrete input: a fresh hit returns the stored
    value and leaves the cache unchanged. -/
theorem get_from_cache_contract_witness :
    getFromCache cacheOne ("q", 5) 10 5 = (some [noResultsFound], cacheOne) :=
  (get_from_cache_contract cacheOne ("q", 5) 10 5).2.1 ⟨("q", 5), [noResultsFound], 0⟩
    (by norm_num [cacheOne, lookupEntry]) (by norm_num)

/-! Helper lemmas for the batch search and the resource collector. -/

theorem foldl_append_eq_flatten {α : Type} :
    ∀ (ls : List (List α)) (acc : List α),
      ls.foldl (fun acc r => acc ++ r) acc = acc ++ ls.flatten
  | [], acc => by simp
  | l :: ls, acc => by
    simp [foldl_append_eq_flatten ls (acc ++ l)]

theorem count_flatten_search (ls : List (List SearchResult)) (r : SearchResult) :
    ls.flatten.count r = (ls.map (List.count r)).sum := by
  induction ls with
  | nil => simp
  | cons l ls ih => simp [List.count_append, ih]

/-- C7: the batch-search operation returns exactly the flattening of the
    per-query result lists, in query order: no result is dropped or
    duplicated relative to running each query individually (occurrence
    counts agree), and each query's own results are kept in provider
    order (they form the corresponding segment of the flattening). -/
theorem batch_search_flattening (f : String → Except String (List SearchResult))
    (queries : List String) :
    searchAsync f queries = (queries.map (searchOne f)).flatten ∧
    ∀ r : SearchResult, (searchAsync f queries).count r =
      (queries.map (fun q => (searchOne f q).count r)).sum := by
  have h : searchAsync f queries = (queries.map (searchOne f)).flatten := by
    rw [searchAsync, foldl_append_eq_flatten]
    simp
  refine ⟨h, fun r => ?_⟩
  rw [h, count_flatten_search, List.map_map]
  rfl

theorem appendNewLinks_eq (links urls : List String) :
    appendNewLinks links urls =
      links ++ urls.filter (fun u => !decide (u ∈ links)) := by
  suffices h : ∀ (us : List String) (acc : List String),
      us.foldl (fun acc url => if url ∈ links then acc else acc ++ [url]) acc
        = acc ++ us.filter (fun u => !decide (u ∈ links)) by
    exact h urls links
  intro us
  induction us with
  | nil => intro acc; simp
  | cons u rest ih =>
    intro acc
    by_cases hu : u ∈ links
    · simp [List.foldl_cons, if_pos hu, ih, List.filter_cons, hu]
    · simp [List.foldl_cons, if_neg hu, ih, List.filter_cons, hu]

theorem buildScores_keys_nodup :
    ∀ (rs : List SearchResult) (acc : List (String × Rat)),
      (acc.map (·.1)).Nodup → ((buildScores rs acc).map (·.1)).Nodup
  | [], _, h => h
  | r :: rs, acc, h => by
    rw [buildScores]
    by_cases h1 : r.url = ""
    · rw [if_pos h1]; exact buildScores_keys_nodup rs acc h
    · rw [if_neg h1]
      by_cases h2 : (acc.find? (fun p => p.1 == r.url)).isSome
      · rw [if_pos h2]; exact buildScores_keys_nodup rs acc h
      · rw [if_neg h2]
        by_cases h3 : domainScore r.url = 0
        · rw [if_pos h3]; exact buildScores_keys_nodup rs acc h
        · rw [if_neg h3]
          apply buildScores_keys_nodup rs
          have hnot : r.url ∉ acc.map (·.1) := by
            intro hmem
            obtain ⟨p, hp, hpe⟩ := List.mem_map.mp hmem
            exact h2 (by
              rw [List.find?_isSome]
              exact ⟨p, hp, by simp [hpe]⟩)
          have hperm : ((acc.map (·.1)) ++ [r.url]).Perm (r.url :: acc.map (·.1)) :=
            List.perm_append_singleton _ _
          rw [List.map_append]
          simp only [List.map_cons, List.map_nil]
          exact hperm.symm.nodup (List.nodup_cons.mpr ⟨hnot, h⟩)

theorem insertPairDesc_perm (x : String × Rat) :
    ∀ l : List (String × Rat), (insertPairDesc x l).Perm (x :: l)
  | [] => List.Perm.refl _
  | y :: ys => by
    rw [insertPairDesc]
    by_cases h : y.2 < x.2
    · rw [if_pos h]
    · rw [if_neg h]
      exact List.Perm.trans (List.Perm.cons y (insertPairDesc_perm x ys))
        (List.Perm.swap x y ys)

theorem pairSort_perm : ∀ scores : List (String × Rat),
    (scores.foldr insertPairDesc []).Perm scores
  | [] => List.Perm.refl _
  | s :: ss => by
    simp only [List.foldr_cons]
    exact List.Perm.trans (insertPairDesc_perm s _)
      (List.Perm.cons s (pairSort_perm ss))

theorem sortedResourceUrls_nodup (scores : List (String × Rat))
    (h : (scores.map (·.1)).Nodup) : (sortedResourceUrls scores).Nodup := by
  rw [sortedResourceUrls]
  apply List.Sublist.nodup (List.take_sublist _ _)
  exact (((pairSort_perm scores).map (·.1)).symm).nodup h

theorem sortedResourceUrls_length (scores : List (String × Rat)) :
    (sortedResourceUrls scores).length ≤ 15 := by
  rw [sortedResourceUrls]
  exact List.length_take_le _ _

/-- C10: the resource-collection stage preserves all already-present
    resource links as an unchanged initial segment (it removes and
    reorders nothing), appends only urls not already in the list, and
    appends at most 15 new links per run, with no duplicates among the
    appended links. -/
theorem resource_links_append_bounded (links : List String)
    (searches : List SearchResult) :
    ∃ t, resourceCollectorLinks links searches = links ++ t ∧
      (∀ u ∈ t, u ∉ links) ∧ t.length ≤ 15 ∧ t.Nodup := by
  refine ⟨(sortedResourceUrls (buildScores searches [])).filter
      (fun u => !decide (u ∈ links)), ?_, ?_, ?_, ?_⟩
  · rw [resourceCollectorLinks, appendNewLinks_eq]
  · intro u hu
    have := (List.mem_filter.mp hu).2
    simpa using this
  · exact le_trans (List.length_filter_le _ _) (sortedResourceUrls_length _)
  · exact (sortedResourceUrls_nodup _
      (buildScores_keys_nodup searches [] (by simp))).filter _

/-- Record with a pre-existing error entry, input for the C1 counterexample. -/
def stateWithError : ResearchState :=
  { company_name := "Acme", industry := "Robotics", errors := ["earlier error"] }

/-- C1 counterexample: the industry-research stage REPLACES the error
    list on an analysis failure (the earlier entry is lost, so the
    failure does not merely append while leaving earlier entries
    intact), and the AI-recommendation stage catches nothing, so a
    remote-call failure escapes that stage. -/
theorem stage_failure_handling_cx :
    stateWithError.errors = ["earlier error"] ∧
    (industryResearchRun stateWithError [] [] (Except.error "llm down")).errors
      = ["Analysis error: llm down"] ∧
    "earlier error" ∉
      (industryResearchRun stateWithError [] [] (Except.error "llm down")).errors ∧
    aiRecommendationRun stateWithError (Except.error "llm down")
      = Except.error "llm down" := by
  refine ⟨rfl, rfl, ?_, rfl⟩
  decide

/-- C1 (amended): a remote-call/parse failure in the industry-research
    analysis step is caught locally and defaults are substituted for the
    stage's fields, but the record's error list is REPLACED by a single
    new message (earlier entries are discarded) rather than appended to;
    the AI-recommendation stage has no local handler at all, so its
    remote-call failure escapes the stage (while its success path just
    fills its own field). -/
theorem stage_failure_handling_amended (s : ResearchState) (off : List String)
    (res : List SearchResult) (e : String) :
    (industryResearchRun s off res (Except.error e)).errors
      = ["Analysis error: " ++ e] ∧
    (industryResearchRun s off res (Except.error e)).market_trends = [] ∧
    (industryResearchRun s off res (Except.error e)).industry_insights
      = "Error during analysis: " ++ e ∧
    (∀ content, aiRecommendationRun s (Except.ok content)
      = Except.ok { s with ai_recommendations := content }) ∧
    aiRecommendationRun s (Except.error e) = Except.error e :=
  ⟨rfl, rfl, rfl, fun _ => rfl, rfl⟩

/-- Report-cache table holding one fresh row with an EMPTY record. -/
def reportRowsEmpty : List ReportRow := [⟨"Acme", "Robotics", [], 10⟩]

/-- C2 counterexample: the report cache holds a fresh entry for
    (Acme, Robotics), yet because the cached record is empty (falsy for
    Python's `if cached_result:`), `research_company` still invokes the
    workflow — the claim that the stage workflow is invoked only when
    the cache lookup returns absent is false. -/
theorem cached_empty_record_runs_workflow_cx :
    getCachedReport reportRowsEmpty "Acme" "Robotics" 10 = some [] ∧
    (researchCompany reportRowsEmpty (fun s => s) "Acme" "Robotics" 10).2 = true := by
  have h : getCachedReport reportRowsEmpty "Acme" "Robotics" 10 = some [] := by
    norm_num [getCachedReport, reportRowsEmpty, List.find?]
  exact ⟨h, by simp [researchCompany, h]⟩

/-- C2 (amended): a fresh cached record is returned verbatim without
    invoking the workflow whenever it is non-empty (truthy); the
    workflow is invoked exactly when the cache lookup returns absent or
    the cached record is empty. -/
theorem research_company_cache_amended (rows : List ReportRow)
    (wf : List (String × String) → List (String × String))
    (company industry : String) (now : Rat) :
    (∀ r, getCachedReport rows company industry now = some r → r ≠ [] →
        researchCompany rows wf company industry now = ((company, r), false)) ∧
    (getCachedReport rows company industry now = none →
        researchCompany rows wf company industry now =
          ((company, wf [("company_name", company), ("industry", industry)]), true)) ∧
    (getCachedReport rows company industry now = some [] →
        researchCompany rows wf company industry now =
          ((company, wf [("company_name", company), ("industry", industry)]), true)) := by
  refine ⟨?_, ?_, ?_⟩
  · intro r h hne; simp [researchCompany, h, hne]
  · intro h; simp [researchCompany, h]
  · intro h; simp [researchCompany, h]

/-- Report-cache table holding one fresh, non-empty record (the spec's
    own example scenario). -/
def reportRowsFresh : List ReportRow :=
  [⟨"Acme", "Robotics", [("market_trends", "X")], 10⟩]

/-- Witness for the amended C2 theorem: the fresh non-empty record is
    returned verbatim and the workflow is not invoked. -/
theorem research_company_cache_witness :
    researchCompany reportRowsFresh (fun s => s) "Acme" "Robotics" 10 =
      (("Acme", [("market_trends", "X")]), false) :=
  (research_company_cache_amended reportRowsFresh (fun s => s) "Acme" "Robotics" 10).1
    [("market_trends", "X")]
    (by norm_num [getCachedReport, reportRowsFresh, List.find?]) (by simp)

/-- C6 counterexample: the progress-callback calls in the stage wrappers
    are not wrapped in try/except, so a callback that raises aborts the
    whole pipeline (the run returns the callback's exception), even with
    every stage succeeding. -/
theorem progress_callback_error_aborts_cx :
    createResearchWorkflow (some (fun _ _ _ => Except.error "callback failed"))
      (fun s => Except.ok s) (fun s => Except.ok s) (fun s => Except.ok s)
      (fun s => Except.ok s) (fun s => Except.ok s) (fun s => Except.ok s)
      (fun s => Except.ok s) {} = Except.error "callback failed" := rfl

/-- C6 (amended): when a callback is supplied the orchestrator invokes
    it before and after every stage with a human-readable message and
    the source's `(step, total = 8)` pair, and a never-raising callback
    does not disturb the pipeline; but callback exceptions are NOT
    caught: a callback that raises aborts the pipeline with its
    exception. -/
theorem progress_callback_notification_amended (f : ProgressCb)
    (hf : ∀ m a b, f m a b = Except.ok ())
    (g1 g2 g3 g4 g5 g6 g7 : ResearchState → ResearchState) (s : ResearchState) :
    createResearchWorkflow (some f)
      (fun x => Except.ok (g1 x)) (fun x => Except.ok (g2 x))
      (fun x => Except.ok (g3 x)) (fun x => Except.ok (g4 x))
      (fun x => Except.ok (g5 x)) (fun x => Except.ok (g6 x))
      (fun x => Except.ok (g7 x)) s =
      Except.ok (g7 (g6 (g5 (g4 (g3 (g2 (g1 s)))))),
        [("🔍 Researching industry trends and company info...", 1, 8),
         ("✅ Industry research completed", 1, 8),
         ("💡 Generating AI use cases...", 3, 8),
         ("✅ Use cases generated", 3, 8),
         ("🤖 Creating AI recommendations...", 4, 8),
         ("✅ AI recommendations completed", 4, 8),
         ("📚 Collecting relevant resources...", 5, 8),
         ("✅ Resources collected", 5, 8),
         ("🏁 Analyzing competitors...", 6, 8),
         ("✅ Competitor analysis completed", 6, 8),
         ("🛠️ Creating implementation plans...", 7, 8),
         ("✅ Implementation plans created", 7, 8),
         ("💰 Calculating cost-benefit analysis...", 8, 8),
         ("✅ Cost-benefit analysis completed", 8, 8)]) ∧
    (∀ e, createResearchWorkflow (some (fun _ _ _ => Except.error e))
      (fun x => Except.ok (g1 x)) (fun x => Except.ok (g2 x))
      (fun x => Except.ok (g3 x)) (fun x => Except.ok (g4 x))
      (fun x => Except.ok (g5 x)) (fun x => Except.ok (g6 x))
      (fun x => Except.ok (g7 x)) s = Except.error e) := by
  constructor
  · simp [createResearchWorkflow, researchWorkflowStages, runStages,
      stageWithProgress, hf]
  · intro e; rfl

/-- Witness for the amended C6 theorem with an always-succeeding
    callback and identity stages. -/
theorem progress_callback_notification_witness :
    createResearchWorkflow (some (fun _ _ _ => Except.ok ()))
      (fun x => Except.ok (id x)) (fun x => Except.ok (id x))
      (fun x => Except.ok (id x)) (fun x => Except.ok (id x))
      (fun x => Except.ok (id x)) (fun x => Except.ok (id x))
      (fun x => Except.ok (id x)) {} =
      Except.ok (({} : ResearchState),
        [("🔍 Researching industry trends and company info...", 1, 8),
         ("✅ Industry research completed", 1, 8),
         ("💡 Generating AI use cases...", 3, 8),
         ("✅ Use cases generated", 3, 8),
         ("🤖 Creating AI recommendations...", 4, 8),
         ("✅ AI recommendations completed", 4, 8),
         ("📚 Collecting relevant resources...", 5, 8),
         ("✅ Resources collected", 5, 8),
         ("🏁 Analyzing competitors...", 6, 8),
         ("✅ Competitor analysis completed", 6, 8),
         ("🛠️ Creating implementation plans...", 7, 8),
         ("✅ Implementation plans created", 7, 8),
         ("💰 Calculating cost-benefit analysis...", 8, 8),
         ("✅ Cost-benefit analysis completed", 8, 8)]) :=
  (progress_callback_notification_amended (fun _ _ _ => Except.ok ())
    (fun _ _ _ => rfl) id id id id id id id {}).1

/-! Helper lemmas about the retry loop of the search gateway. -/

theorem lookupEntry_mem :
    ∀ {c : List CacheEntry} {k : String × Nat} {e : CacheEntry},
      lookupEntry c k = some e → e ∈ c
  | [], _, _, h => by simp [lookupEntry] at h
  | x :: xs, k, e, h => by
    rw [lookupEntry] at h
    by_cases hx : x.key = k
    · rw [if_pos hx] at h
      exact (Option.some.inj h) ▸ List.mem_cons_self x xs
    · rw [if_neg hx] at h
      exact List.mem_cons_of_mem x (lookupEntry_mem h)

theorem getFromCache_hit_mem (c : List CacheEntry) (k : String × Nat)
    (ttl now : Rat) (rs : List SearchResult)
    (hg : (getFromCache c k ttl now).1 = some rs) :
    ∃ e ∈ c, rs = e.value := by
  rw [getFromCache] at hg
  cases hl : lookupEntry c k with
  | none => rw [hl] at hg; simp at hg
  | some e =>
    rw [hl] at hg
    by_cases hf : now - e.ts ≤ ttl
    · simp [hf] at hg
      exact ⟨e, lookupEntry_mem hl, hg.symm⟩
    · simp [hf] at hg

theorem getFromCache_miss_lookup (c : List CacheEntry) (k : String × Nat)
    (ttl now : Rat) (hnd : (c.map (·.key)).Nodup)
    (hm : (getFromCache c k ttl now).1 = none) :
    lookupEntry ((getFromCache c k ttl now).2) k = none := by
  rw [getFromCache] at hm ⊢
  cases hl : lookupEntry c k with
  | none => simpa using hl
  | some e =>
    rw [hl] at hm
    by_cases hf : now - e.ts ≤ ttl
    · simp [hf] at hm
    · simpa [hf] using lookupEntry_eraseKey_self k c hnd

theorem webSearchRun_miss (maxSize : Nat) (c : List CacheEntry)
    (provider : Nat → Except String (List RawResult)) (query : String)
    (maxResults : Nat) (ttl now : Rat)
    (hm : (getFromCache c (normalizeQuery query, maxResults) ttl now).1 = none) :
    webSearchRun maxSize c provider query maxResults ttl now =
      retrySearch maxSize provider (normalizeQuery query, maxResults)
        (getFromCache c (normalizeQuery query, maxResults) ttl now).2 0 2 2 now := by
  simp only [webSearchRun]
  rw [hm]

theorem webSearchRun_empty_hit (maxSize : Nat) (c : List CacheEntry)
    (provider : Nat → Except String (List RawResult)) (query : String)
    (maxResults : Nat) (ttl now : Rat)
    (hm : (getFromCache c (normalizeQuery query, maxResults) ttl now).1 = some []) :
    webSearchRun maxSize c provider query maxResults ttl now =
      retrySearch maxSize provider (normalizeQuery query, maxResults)
        (getFromCache c (normalizeQuery query, maxResults) ttl now).2 0 2 2 now := by
  simp only [webSearchRun]
  rw [hm]
  simp

/-- Back-off sleeps performed when a run of consecutive attempts fails:
    one sleep per remaining retry, doubling each time. -/
def geomSleeps (delay : Rat) : Nat → List Rat
  | 0 => []
  | t + 1 => delay :: geomSleeps (delay * 2) t

theorem retrySearch_all_fail (maxSize : Nat)
    (provider : Nat → Except String (List RawResult)) (k : String × Nat)
    (c : List CacheEntry) (ef : Nat → String)
    (hfail : ∀ n, provider n = Except.error (ef n)) :
    ∀ (triesLeft attempt : Nat) (delay now : Rat),
      retrySearch maxSize provider k c attempt triesLeft delay now =
        ⟨[searchErrorResult (ef (attempt + triesLeft))], c,
          geomSleeps delay triesLeft, attempt + triesLeft + 1⟩ := by
  intro triesLeft
  induction triesLeft with
  | zero =>
    intro attempt delay now
    simp [retrySearch, hfail, geomSleeps]
  | succ t ih =>
    intro attempt delay now
    rw [retrySearch, hfail attempt]
    simp only [ih (attempt + 1) (delay * 2) (now + delay), geomSleeps]
    have h : attempt + 1 + t = attempt + (t + 1) := by omega
    rw [h]

theorem retrySearch_attempts_pos (maxSize : Nat)
    (provider : Nat → Except String (List RawResult)) (k : String × Nat)
    (c : List CacheEntry) :
    ∀ (triesLeft attempt : Nat) (delay now : Rat),
      1 ≤ (retrySearch maxSize provider k c attempt triesLeft delay now).attempts := by
  intro triesLeft
  induction triesLeft with
  | zero =>
    intro attempt delay now
    rw [retrySearch]
    cases provider attempt with
    | ok raw =>
      by_cases h : raw.map processResult = [] <;> simp [h]
    | error e => simp
  | succ t ih =>
    intro attempt delay now
    rw [retrySearch]
    cases provider attempt with
    | ok raw =>
      by_cases h : raw.map processResult = [] <;> simp [h]
    | error e =>
      simpa using le_trans (ih (attempt + 1) (delay * 2) (now + delay)) (le_refl _)

theorem retrySearch_first_success (maxSize : Nat)
    (provider : Nat → Except String (List RawResult)) (k : String × Nat)
    (c : List CacheEntry) (raw : List RawResult) :
    ∀ (triesLeft attempt : Nat) (delay now : Rat) (j : Nat),
      attempt ≤ j → j ≤ attempt + triesLeft →
      (∀ i, attempt ≤ i → i < j → ∃ e, provider i = Except.error e) →
      provider j = Except.ok raw →
      (retrySearch maxSize provider k c attempt triesLeft delay now).attempts = j + 1 ∧
      (raw = [] →
        (retrySearch maxSize provider k c attempt triesLeft delay now).results
          = [noResultsFound] ∧
        (retrySearch maxSize provider k c attempt triesLeft delay now).cache = c) ∧
      (raw ≠ [] →
        (retrySearch maxSize provider k c attempt triesLeft delay now).results
          = raw.map processResult ∧
        ∃ t2, (retrySearch maxSize provider k c attempt triesLeft delay now).cache =
          addToCache maxSize c k (raw.map processResult) t2) := by
  intro triesLeft
  induction triesLeft with
  | zero =>
    intro attempt delay now j h1 h2 hfail hsucc
    have hj : j = attempt := by omega
    subst hj
    by_cases hraw : raw = []
    · subst hraw
      simp [retrySearch, hsucc]
    · have hmap : ¬ raw.map processResult = [] := by simpa using hraw
      simp only [retrySearch, hsucc, hmap, if_false, ite_false]
      simp [hraw, hmap]
  | succ t ih =>
    intro attempt delay now j h1 h2 hfail hsucc
    by_cases hj : j = attempt
    · subst hj
      by_cases hraw : raw = []
      · subst hraw
        simp [retrySearch, hsucc]
      · have hmap : ¬ raw.map processResult = [] := by simpa using hraw
        simp only [retrySearch, hsucc, hmap, if_false, ite_false]
        simp [hraw, hmap]
    · have hlt : attempt < j := lt_of_le_of_ne h1 (Ne.symm hj)
      obtain ⟨e, he⟩ := hfail attempt (le_refl _) hlt
      rw [retrySearch, he]
      have hrec := ih (attempt + 1) (delay * 2) (now + delay) j hlt (by omega)
        (fun i hi1 hi2 => hfail i (by omega) hi2) hsucc
      simpa using hrec

theorem retrySearch_results_cases (maxSize : Nat)
    (provider : Nat → Except String (List RawResult)) (k : String × Nat)
    (c : List CacheEntry) :
    ∀ (triesLeft attempt : Nat) (delay now : Rat) (res : SearchResult),
      res ∈ (retrySearch maxSize provider k c attempt triesLeft delay now).results →
      (∃ n raw, provider n = Except.ok raw ∧ res ∈ raw.map processResult) ∨
      res = noResultsFound ∨ ∃ e, res = searchErrorResult e := by
  intro triesLeft
  induction triesLeft with
  | zero =>
    intro attempt delay now res hres
    rw [retrySearch] at hres
    cases hp : provider attempt with
    | ok raw =>
      rw [hp] at hres
      by_cases hraw : raw.map processResult = []
      · simp [hraw] at hres
        exact Or.inr (Or.inl hres)
      · simp [hraw] at hres
        exact Or.inl ⟨attempt, raw, hp, by simpa using hres⟩
    | error e =>
      rw [hp] at hres
      simp at hres
      exact Or.inr (Or.inr ⟨e, hres⟩)
  | succ t ih =>
    intro attempt delay now res hres
    rw [retrySearch] at hres
    cases hp : provider attempt with
    | ok raw =>
      rw [hp] at hres
      by_cases hraw : raw.map processResult = []
      · simp [hraw] at hres
        exact Or.inr (Or.inl hres)
      · simp [hraw] at hres
        exact Or.inl ⟨attempt, raw, hp, by simpa using hres⟩
    | error e =>
      rw [hp] at hres
      simp only at hres
      exact ih (attempt + 1) (delay * 2) (now + delay) res (by simpa using hres)

/-- C5: on a cache miss (or a falsy empty hit), a query on which the
    remote provider fails on every attempt makes exactly 3 attempts,
    sleeps 2 time units before the second attempt and 4 before the
    third (exponential backoff starting at 2, doubling each retry), and
    returns exactly one sentinel result carrying the error text of the
    last attempt with relevance score 0 — a usable result list, never
    an exception. -/
theorem search_retries_exhausted_sentinel (maxSize : Nat) (c : List CacheEntry)
    (provider : Nat → Except String (List RawResult)) (query : String)
    (maxResults : Nat) (ttl now : Rat) (ef : Nat → String)
    (hfail : ∀ n, provider n = Except.error (ef n))
    (hmiss : (getFromCache c (normalizeQuery query, maxResults) ttl now).1 = none ∨
        (getFromCache c (normalizeQuery query, maxResults) ttl now).1 = some []) :
    (webSearchRun maxSize c provider query maxResults ttl now).attempts = 3 ∧
    (webSearchRun maxSize c provider query maxResults ttl now).sleeps = [2, 4] ∧
    (webSearchRun maxSize c provider query maxResults ttl now).results
      = [searchErrorResult (ef 2)] ∧
    (searchErrorResult (ef 2)).relevance_score = 0 := by
  have hrun : webSearchRun maxSize c provider query maxResults ttl now =
      retrySearch maxSize provider (normalizeQuery query, maxResults)
        (getFromCache c (normalizeQuery query, maxResults) ttl now).2 0 2 2 now := by
    rcases hmiss with hm | hm
    · exact webSearchRun_miss maxSize c provider query maxResults ttl now hm
    · exact webSearchRun_empty_hit maxSize c provider query maxResults ttl now hm
  rw [hrun, retrySearch_all_fail maxSize provider _ _ ef hfail 2 0 2 now]
  refine ⟨rfl, ?_, rfl, rfl⟩
  norm_num [geomSleeps]

/-- Witness for C5: empty cache, provider failing identically on every
    attempt. -/
theorem search_retries_exhausted_sentinel_witness :
    (webSearchRun 100 [] (fun _ => Except.error "boom") "q" 5 3600 0).attempts = 3 ∧
    (webSearchRun 100 [] (fun _ => Except.error "boom") "q" 5 3600 0).sleeps = [2, 4] ∧
    (webSearchRun 100 [] (fun _ => Except.error "boom") "q" 5 3600 0).results
      = [searchErrorResult "boom"] ∧
    (searchErrorResult "boom").relevance_score = 0 :=
  search_retries_exhausted_sentinel 100 [] (fun _ => Except.error "boom") "q" 5 3600 0
    (fun _ => "boom") (fun _ => rfl) (Or.inl rfl)

/-- C8: on a cache miss, when the provider's first successful attempt
    (after any failed ones) returns at least one result, the processed
    results are stored in the cache; a zero-result response is never
    stored — the returned list is the no-results sentinel, the cache is
    left without an entry for the key, and immediately repeating the
    query misses the cache and invokes the provider again (the second
    run makes at least one provider call). -/
theorem empty_results_not_cached (maxSize : Nat) (c : List CacheEntry)
    (provider : Nat → Except String (List RawResult)) (query : String)
    (maxResults : Nat) (ttl now : Rat) (j : Nat) (raw : List RawResult)
    (ef : Nat → String)
    (hnd : (c.map (·.key)).Nodup)
    (hmiss : (getFromCache c (normalizeQuery query, maxResults) ttl now).1 = none)
    (hj : j ≤ 2)
    (hfail : ∀ i, i < j → provider i = Except.error (ef i))
    (hsucc : provider j = Except.ok raw) :
    (raw ≠ [] → ∃ t2,
      (webSearchRun maxSize c provider query maxResults ttl now).cache =
        addToCache maxSize
          (getFromCache c (normalizeQuery query, maxResults) ttl now).2
          (normalizeQuery query, maxResults) (raw.map processResult) t2 ∧
      (webSearchRun maxSize c provider query maxResults ttl now).results
        = raw.map processResult) ∧
    (raw = [] →
      (webSearchRun maxSize c provider query maxResults ttl now).cache =
        (getFromCache c (normalizeQuery query, maxResults) ttl now).2 ∧
      (webSearchRun maxSize c provider query maxResults ttl now).results
        = [noResultsFound] ∧
      ∀ provider2 : Nat → Except String (List RawResult),
        1 ≤ (webSearchRun maxSize
              (webSearchRun maxSize c provider query maxResults ttl now).cache
              provider2 query maxResults ttl now).attempts) := by
  have hrun := webSearchRun_miss maxSize c provider query maxResults ttl now hmiss
  have hfs := retrySearch_first_success maxSize provider
    (normalizeQuery query, maxResults)
    (getFromCache c (normalizeQuery query, maxResults) ttl now).2 raw
    2 0 2 now j (Nat.zero_le _) (by omega)
    (fun i _ hi2 => ⟨ef i, hfail i hi2⟩) hsucc
  constructor
  · intro hraw
    obtain ⟨hres, t2, hcache⟩ := hfs.2.2 hraw
    exact ⟨t2, by rw [hrun, hcache], by rw [hrun, hres]⟩
  · intro hraw
    obtain ⟨hres, hcache⟩ := hfs.2.1 hraw
    refine ⟨by rw [hrun, hcache], by rw [hrun, hres], ?_⟩
    intro provider2
    have hcache2 : (webSearchRun maxSize c provider query maxResults ttl now).cache =
        (getFromCache c (normalizeQuery query, maxResults) ttl now).2 := by
      rw [hrun, hcache]
    have hlook : lookupEntry
        ((webSearchRun maxSize c provider query maxResults ttl now).cache)
        (normalizeQuery query, maxResults) = none := by
      rw [hcache2]
      exact getFromCache_miss_lookup c _ ttl now hnd hmiss
    have hm2 : (getFromCache
        ((webSearchRun maxSize c provider query maxResults ttl now).cache)
        (normalizeQuery query, maxResults) ttl now).1 = none := by
      rw [getFromCache, hlook]
    rw [webSearchRun_miss maxSize _ provider2 query maxResults ttl now hm2]
    exact retrySearch_attempts_pos maxSize provider2 _ _ 2 0 2 now

/-- Witness for C8: empty cache, provider succeeding immediately with
    one raw result. -/
theorem empty_results_not_cached_witness :
    ∃ t2,
      (webSearchRun 100 []
        (fun _ => Except.ok [RawResult.mk (some "T") (some "u") none (some 1)])
        "q" 5 3600 0).cache =
      addToCache 100
        (getFromCache [] (normalizeQuery "q", 5) 3600 0).2
        (normalizeQuery "q", 5)
        ([RawResult.mk (some "T") (some "u") none (some 1)].map processResult) t2 ∧
      (webSearchRun 100 []
        (fun _ => Except.ok [RawResult.mk (some "T") (some "u") none (some 1)])
        "q" 5 3600 0).results
        = [RawResult.mk (some "T") (some "u") none (some 1)].map processResult :=
  (empty_results_not_cached 100 []
    (fun _ => Except.ok [RawResult.mk (some "T") (some "u") none (some 1)])
    "q" 5 3600 0 0 [RawResult.mk (some "T") (some "u") none (some 1)]
    (fun _ => "") List.nodup_nil rfl (by omega)
    (fun i hi => absurd hi (Nat.not_lt_zero i)) rfl).1
    (by simp)

/-- C9 counterexample: relevance scores are passed through from the
    provider without clamping: a provider response with score 2
    produces a returned result list whose score is 2, outside [0,1]. -/
theorem score_passthrough_out_of_range_cx :
    ((webSearchRun 100 []
        (fun _ => Except.ok [RawResult.mk (some "t") (some "u") none (some 2)])
        "q" 5 3600 0).results.map (·.relevance_score)) = [2] ∧
    ¬ ((2 : Rat) ≤ 1) := by
  constructor
  · rfl
  · norm_num

theorem retrySearch_scores_bounded (maxSize : Nat)
    (provider : Nat → Except String (List RawResult)) (k : String × Nat)
    (c2 : List CacheEntry)
    (hp : ∀ n raw, provider n = Except.ok raw → ∀ x ∈ raw, ∀ sc, x.score = some sc →
        0 ≤ sc ∧ sc ≤ 1) :
    ∀ (triesLeft attempt : Nat) (delay now : Rat) (res : SearchResult),
      res ∈ (retrySearch maxSize provider k c2 attempt triesLeft delay now).results →
      0 ≤ res.relevance_score ∧ res.relevance_score ≤ 1 := by
  intro triesLeft attempt delay now res hres
  rcases retrySearch_results_cases maxSize provider k c2 triesLeft attempt delay now
      res hres with ⟨n, raw, hok, hmem⟩ | h | ⟨e, he⟩
  · obtain ⟨x, hx, rfl⟩ := List.mem_map.mp hmem
    cases hxs : x.score with
    | none => simp [processResult, hxs]
    | some sc =>
      have := hp n raw hok x hx sc hxs
      simpa [processResult, hxs] using this
  · subst h; norm_num [noResultsFound]
  · subst he; norm_num [searchErrorResult]

/-- C9 (amended): the search operation passes relevance scores through
    unmodified, so whenever every provider-supplied score and every
    score already cached lies in [0,1], every score in every returned
    list lies in [0,1] (a missing provider score defaults to 0); both
    sentinel results always carry relevance score 0. -/
theorem scores_in_range_amended (maxSize : Nat) (c : List CacheEntry)
    (provider : Nat → Except String (List RawResult)) (query : String)
    (maxResults : Nat) (ttl now : Rat)
    (hc : ∀ e ∈ c, ∀ res ∈ e.value,
        0 ≤ res.relevance_score ∧ res.relevance_score ≤ 1)
    (hp : ∀ n raw, provider n = Except.ok raw → ∀ x ∈ raw, ∀ sc, x.score = some sc →
        0 ≤ sc ∧ sc ≤ 1) :
    (∀ res ∈ (webSearchRun maxSize c provider query maxResults ttl now).results,
        0 ≤ res.relevance_score ∧ res.relevance_score ≤ 1) ∧
    (∀ e, (searchErrorResult e).relevance_score = 0) ∧
    noResultsFound.relevance_score = 0 := by
  refine ⟨?_, fun _ => rfl, rfl⟩
  intro res hres
  cases hg : (getFromCache c (normalizeQuery query, maxResults) ttl now).1 with
  | some rs =>
    by_cases hrs : rs = []
    · subst hrs
      rw [webSearchRun_empty_hit maxSize c provider query maxResults ttl now hg] at hres
      exact retrySearch_scores_bounded maxSize provider _ _ hp 2 0 2 now res hres
    · have hout : (webSearchRun maxSize c provider query maxResults ttl now).results
          = rs := by
        simp only [webSearchRun]
        rw [hg]
        simp [hrs]
      rw [hout] at hres
      obtain ⟨e, he, hev⟩ := getFromCache_hit_mem c _ ttl now rs hg
      exact hc e he res (hev ▸ hres)
  | none =>
    rw [webSearchRun_miss maxSize c provider query maxResults ttl now hg] at hres
    exact retrySearch_scores_bounded maxSize provider _ _ hp 2 0 2 now res hres

/-- Witness for the amended C9 theorem: a provider score of 1/2 is
    returned and lies in [0,1]. -/
theorem scores_in_range_witness :
    0 ≤ (processResult (RawResult.mk (some "T") (some "u") none (some (1/2)))).relevance_score ∧
    (processResult (RawResult.mk (some "T") (some "u") none (some (1/2)))).relevance_score ≤ 1 :=
  (scores_in_range_amended 100 []
    (fun _ => Except.ok [RawResult.mk (some "T") (some "u") none (some (1/2))])
    "q" 5 3600 0
    (fun e he => absurd he (List.not_mem_nil e))
    (by
      intro n raw h x hx sc hsc
      have hraw : raw = [RawResult.mk (some "T") (some "u") none (some (1/2))] :=
        (Except.ok.inj h).symm
      subst hraw
      have hx2 : x = RawResult.mk (some "T") (some "u") none (some (1/2)) := by
        simpa using hx
      subst hx2
      have hsc2 : sc = 1/2 := by
        have : some (1/2 : Rat) = some sc := hsc
        simpa using this.symm
      subst hsc2
      norm_num)).1
    (processResult (RawResult.mk (some "T") (some "u") none (some (1/2))))
    (by
      have hres : (webSearchRun 100 []
          (fun _ => Except.ok [RawResult.mk (some "T") (some "u") none (some (1/2))])
          "q" 5 3600 0).results
          = [processResult (RawResult.mk (some "T") (some "u") none (some (1/2)))] := rfl
      rw [hres]
      exact List.mem_singleton_self _)
